import Mathlib

/-!
Verification of the AI-provider abstraction and schedule-automation pipeline
of the Syntria workspace (an Express server `server/index.ts` plus the
provider library `src/lib/api.ts`).

The embedding below translates the TypeScript source into Lean:

* `jsonParse` models JavaScript's `JSON.parse` (success as `some`, a thrown
  `SyntaxError` as `none`).  Numbers are kept as their raw lexemes, objects as
  ordered field lists; whitespace handling follows the JSON grammar
  (`ws value ws`).
* `extractJSON` models the shared response-parsing logic of
  `OllamaProvider.generateJSON`, `GroqProvider.generateJSON` and
  `GeminiProvider.generateJSON` (trim, fence stripping via the two
  `String.replace` regexes, direct parse, then the greedy
  `/\x7b[\s\S]*\x7d/` fallback).
* provider selection models `getAIProvider` / `getAIProviderWithFallback`.
* the schedule pipeline models `generateScheduleFromStrategyAndChat`'s
  date-assignment map, the calendar-event derivation of the
  `/api/pm/automation/sync-calendar` handler, `createEventsInGoogleCalendar`
  and the handler's token / needsAuth logic.

Network I/O (HTTP responses of the model daemon, the chat-completion
endpoints and the Google Calendar API) is passed in as explicit oracles;
timestamps and calendar dates are abstracted to integers (a date is a day
number, a timestamp an hour number), which preserves all the arithmetic the
claims are about.
-/

/-! ## A model of JavaScript's JSON values and `JSON.parse` -/

/-- A parsed JSON value.  A number is kept as its source lexeme (both sides of
every comparison in this development parse the same characters, so lexeme
equality is the equality that matters); an object keeps its fields in source
order. -/
inductive JValue where
  | null : JValue
  | bool (b : Bool) : JValue
  | num (lexeme : String) : JValue
  | str (s : String) : JValue
  | arr (elems : List JValue) : JValue
  | obj (fields : List (String × JValue)) : JValue
deriving Repr

/-- The four JSON whitespace characters (the `ws` of the JSON grammar). -/
def isJsonWs (c : Char) : Bool :=
  c == ' ' || c == '\t' || c == '\n' || c == '\r'

/-- Drop leading characters satisfying `P`. -/
def skipWs (l : List Char) : List Char := l.dropWhile isJsonWs

/-- Drop characters satisfying `P` from both ends of a list. -/
def trimBoth (P : Char → Bool) (l : List Char) : List Char :=
  ((l.dropWhile P).reverse.dropWhile P).reverse

/-- The numeric value of a hexadecimal digit, if any. -/
def hexVal (c : Char) : Option Nat :=
  if '0' ≤ c ∧ c ≤ '9' then some (c.toNat - '0'.toNat)
  else if 'a' ≤ c ∧ c ≤ 'f' then some (c.toNat - 'a'.toNat + 10)
  else if 'A' ≤ c ∧ c ≤ 'F' then some (c.toNat - 'A'.toNat + 10)
  else none

/-- The character an escaped `\\c` denotes inside a JSON string, for the
single-character escapes. -/
def escapeChar (e : Char) : Option Char :=
  if e = '"' then some '"'
  else if e = '\\' then some '\\'
  else if e = '/' then some '/'
  else if e = 'b' then some '\x08'
  else if e = 'f' then some '\x0c'
  else if e = 'n' then some '\n'
  else if e = 'r' then some '\r'
  else if e = 't' then some '\t'
  else none

/-- Parse the body of a JSON string after the opening quote: the decoded
content together with the input remaining after the closing quote. -/
def parseStringBody : List Char → Option (List Char × List Char)
  | [] => none
  | c :: rest =>
    if c = '"' then some ([], rest)
    else if c = '\\' then
      match rest with
      | 'u' :: h1 :: h2 :: h3 :: h4 :: rest4 =>
        match hexVal h1, hexVal h2, hexVal h3, hexVal h4 with
        | some a, some b, some c2, some d =>
          (parseStringBody rest4).map
            (fun p => (Char.ofNat (((a * 16 + b) * 16 + c2) * 16 + d) :: p.1, p.2))
        | _, _, _, _ => none
      | e :: rest2 =>
        match escapeChar e with
        | some ch => (parseStringBody rest2).map (fun p => (ch :: p.1, p.2))
        | none => none
      | [] => none
    else if c.toNat < 32 then none
    else (parseStringBody rest).map (fun p => (c :: p.1, p.2))

/-- The leading run of decimal digits. -/
def numDigits (l : List Char) : List Char := l.takeWhile (fun c => c.isDigit)

/-- What remains after the leading run of decimal digits. -/
def afterDigits (l : List Char) : List Char := l.dropWhile (fun c => c.isDigit)

/-- The integer part of a JSON number (`0`, or a run of digits not starting
with `0`). -/
def parseIntPart : List Char → Option (List Char × List Char)
  | '0' :: r => some (['0'], r)
  | l =>
    let ds := numDigits l
    if ds.isEmpty then none else some (ds, afterDigits l)

/-- The optional fraction part of a JSON number. -/
def parseFracPart : List Char → Option (List Char × List Char)
  | '.' :: r =>
    let ds := numDigits r
    if ds.isEmpty then none else some ('.' :: ds, afterDigits r)
  | l => some ([], l)

/-- The optional exponent part of a JSON number. -/
def parseExpPart : List Char → Option (List Char × List Char)
  | c :: r =>
    if c = 'e' ∨ c = 'E' then
      let sr : List Char × List Char :=
        match r with
        | '+' :: r2 => (['+'], r2)
        | '-' :: r2 => (['-'], r2)
        | _ => ([], r)
      let ds := numDigits sr.2
      if ds.isEmpty then none else some (c :: (sr.1 ++ ds), afterDigits sr.2)
    else some ([], c :: r)
  | [] => some ([], [])

/-- A JSON number lexeme (sign, integer part, optional fraction and
exponent) and the remaining input. -/
def parseNumber (l : List Char) : Option (List Char × List Char) :=
  let sl : List Char × List Char :=
    match l with
    | '-' :: r => (['-'], r)
    | _ => ([], l)
  match parseIntPart sl.2 with
  | none => none
  | some (ip, l2) =>
    match parseFracPart l2 with
    | none => none
    | some (fp, l3) =>
      match parseExpPart l3 with
      | none => none
      | some (ep, l4) => some (sl.1 ++ ip ++ fp ++ ep, l4)

/-- What the fuelled JSON parser is asked to parse next: a value, the tail of
a non-empty array (elements up to the closing bracket), or the tail of a
non-empty object. -/
inductive PReq where
  | val : PReq
  | arrTail : PReq
  | objTail : PReq

/-- The recursive JSON parser.  `parseF fuel .val l` parses one JSON value
from `l` (leading whitespace allowed) and returns it with the remaining
input; `.arrTail` / `.objTail` parse `v, …]` / `"k": v, …\x7d` after an
opening bracket known not to close immediately.  Fuel only bounds recursion
depth; `jsonParseCore` supplies more than any input can consume. -/
def parseF : Nat → PReq → List Char → Option (JValue × List Char)
  | 0, _, _ => none
  | fuel + 1, PReq.val, l =>
    match skipWs l with
    | 'n' :: 'u' :: 'l' :: 'l' :: r => some (JValue.null, r)
    | 't' :: 'r' :: 'u' :: 'e' :: r => some (JValue.bool true, r)
    | 'f' :: 'a' :: 'l' :: 's' :: 'e' :: r => some (JValue.bool false, r)
    | '"' :: r =>
      match parseStringBody r with
      | some (cs, r2) => some (JValue.str (String.mk cs), r2)
      | none => none
    | '[' :: r =>
      match skipWs r with
      | ']' :: r2 => some (JValue.arr [], r2)
      | _ => parseF fuel PReq.arrTail r
    | '\x7b' :: r =>
      match skipWs r with
      | '\x7d' :: r2 => some (JValue.obj [], r2)
      | _ => parseF fuel PReq.objTail r
    | l2 =>
      match parseNumber l2 with
      | some (lex, r) => some (JValue.num (String.mk lex), r)
      | none => none
  | fuel + 1, PReq.arrTail, l =>
    match parseF fuel PReq.val l with
    | some (v, r) =>
      match skipWs r with
      | ',' :: r2 =>
        match parseF fuel PReq.arrTail r2 with
        | some (JValue.arr vs, r3) => some (JValue.arr (v :: vs), r3)
        | _ => none
      | ']' :: r2 => some (JValue.arr [v], r2)
      | _ => none
    | none => none
  | fuel + 1, PReq.objTail, l =>
    match skipWs l with
    | '"' :: r =>
      match parseStringBody r with
      | some (k, r2) =>
        match skipWs r2 with
        | ':' :: r3 =>
          match parseF fuel PReq.val r3 with
          | some (v, r4) =>
            match skipWs r4 with
            | ',' :: r5 =>
              match parseF fuel PReq.objTail r5 with
              | some (JValue.obj fs, r6) => some (JValue.obj ((String.mk k, v) :: fs), r6)
              | _ => none
            | '\x7d' :: r5 => some (JValue.obj [(String.mk k, v)], r5)
            | _ => none
          | none => none
        | _ => none
      | none => none
    | _ => none

/-- Parse a whole JSON document from a character list: one value, with any
trailing whitespace, and nothing else. -/
def jsonParseCore (l : List Char) : Option JValue :=
  match parseF (2 * l.length + 2) PReq.val l with
  | some (v, rest) => if (skipWs rest).isEmpty then some v else none
  | none => none

/-- `JSON.parse` on a character list.  Trimming JSON whitespace from both
ends first is equivalent to the `ws value ws` document grammar and is the
form the fence-stripping proofs use. -/
def jsonParseL (l : List Char) : Option JValue :=
  jsonParseCore (trimBoth isJsonWs l)

/-- The model of `JSON.parse` on a string: `some` on success, `none` where
the JavaScript call throws a `SyntaxError`. -/
def jsonParse (s : String) : Option JValue := jsonParseL s.data

/-! ## The response extractor (`generateJSON` parsing logic, `src/lib/api.ts`)

The three providers share this logic verbatim (Ollama lines 354-371, Groq
lines 428-445, Gemini lines 472-489): trim, strip a leading ```json or ```
fence with the two global `String.replace` regexes, try `JSON.parse`, and on
failure retry on the greedy `/\x7b[\s\S]*\x7d/` match. -/

/-- JavaScript's `String.prototype.trim` whitespace test, restricted to the
ASCII whitespace characters (the development never feeds it the further
Unicode space characters `trim` also removes). -/
def isJsWs (c : Char) : Bool :=
  c == ' ' || c == '\t' || c == '\n' || c == '\r' || c == '\x0b' || c == '\x0c'

/-- `text.trim()`. -/
def jsTrim (l : List Char) : List Char := trimBoth isJsWs l

/-- Does `l` start with the pattern list `pat`? -/
def listStartsWith : List Char → List Char → Bool
  | [], _ => true
  | _ :: _, [] => false
  | p :: ps, c :: cs => p == c && listStartsWith ps cs

/-- `jsonText.startsWith('```json')`. -/
def startsWithFenceJson (l : List Char) : Bool :=
  listStartsWith "```json".data l

/-- `jsonText.startsWith('```')`. -/
def startsWithTicks (l : List Char) : Bool :=
  listStartsWith "```".data l

/-- The global replace `.replace(/```json\n?/g, '')`: scan left to right and
delete every occurrence of ```json followed by an optional newline. -/
def replJsonFence : List Char → List Char
  | [] => []
  | '\x60' :: '\x60' :: '\x60' :: 'j' :: 's' :: 'o' :: 'n' :: '\n' :: rest => replJsonFence rest
  | '\x60' :: '\x60' :: '\x60' :: 'j' :: 's' :: 'o' :: 'n' :: rest => replJsonFence rest
  | c :: rest => c :: replJsonFence rest

/-- The global replace `.replace(/```\n?/g, '')`: delete every occurrence of
``` followed by an optional newline. -/
def replTicks : List Char → List Char
  | [] => []
  | '\x60' :: '\x60' :: '\x60' :: '\n' :: rest => replTicks rest
  | '\x60' :: '\x60' :: '\x60' :: rest => replTicks rest
  | c :: rest => c :: replTicks rest

/-- The anchored replace `.replace(/```\n?$/g, '')`: remove one trailing
```-with-optional-newline suffix, if present. -/
def stripTrailingFence (l : List Char) : List Char :=
  match l.reverse with
  | '\n' :: '\x60' :: '\x60' :: '\x60' :: r => r.reverse
  | '\x60' :: '\x60' :: '\x60' :: r => r.reverse
  | _ => l

/-- The match `jsonText.match(/\x7b[\s\S]*\x7d/)`: the substring from the
first `\x7b` to the last `\x7d`, when the latter follows the former
(regex scanning picks the earliest start, greedy `[\s\S]*` the latest
closing brace). -/
def braceSpanAux (l : List Char) : List Char :=
  ((l.dropWhile (fun c => !(c == '\x7b'))).reverse.dropWhile (fun c => !(c == '\x7d'))).reverse

def braceSpan (l : List Char) : Option (List Char) :=
  if (braceSpanAux l).isEmpty then none else some (braceSpanAux l)

/-- The fence-stripping step applied to the trimmed text: a leading
```json fence runs the json-fence replace, a bare ``` fence the plain
replace, each followed by the trailing-fence strip; other texts pass
through. -/
def fenceStrip (t0 : List Char) : List Char :=
  if startsWithFenceJson t0 then stripTrailingFence (replJsonFence t0)
  else if startsWithTicks t0 then stripTrailingFence (replTicks t0)
  else t0

/-- The shared `generateJSON` response parsing on a character list: `some`
is a returned value, `none` a thrown error (either the explanatory
`Failed to parse JSON from … response` or the `SyntaxError` of the retried
parse). -/
def extractJSONL (l : List Char) : Option JValue :=
  match jsonParseL (fenceStrip (jsTrim l)) with
  | some v => some v
  | none =>
    match braceSpan (fenceStrip (jsTrim l)) with
    | some span => jsonParseL span
    | none => none

/-- The ResponseExtractor: `extractJSON(rawText)`. -/
def extractJSON (s : String) : Option JValue := extractJSONL s.data

/-! ## Provider adapters and selection (`src/lib/api.ts` lines 310-557) -/

/-- The instruction `generateJSON` appends to the prompt in `OllamaProvider`
(line 352) and `GroqProvider` (line 426). -/
def jsonInstruction : String :=
  "\n\nReturn ONLY valid JSON, no markdown or extra text."

/-- `OllamaProvider.generateJSON`: `generateText` on the extended prompt
(the oracle `gen` maps a prompt to the text the backend returns), piped
through the response extractor. -/
def ollamaGenerateJSON (gen : String → String) (prompt : String) : Option JValue :=
  extractJSON (gen (prompt ++ jsonInstruction))

/-- `GroqProvider.generateJSON`: same pipeline as Ollama. -/
def groqGenerateJSON (gen : String → String) (prompt : String) : Option JValue :=
  extractJSON (gen (prompt ++ jsonInstruction))

/-- `GeminiProvider.generateJSON` (line 470): `generateText` on the prompt
as given — no JSON instruction is appended — then the same extractor. -/
def geminiGenerateJSON (gen : String → String) (prompt : String) : Option JValue :=
  extractJSON (gen prompt)

/-- JavaScript truthiness of an optional environment string: set and
non-empty. -/
def truthyEnv : Option String → Bool
  | none => false
  | some s => !s.data.isEmpty

/-- The configuration `getAIProvider` reads, with the outcome of the
`ollama.isAvailable()` probe (a 2-second `GET /api/tags` that returns
`false` on any failure) supplied as a boolean oracle. -/
structure ProviderEnv where
  ollamaBaseUrl : Option String
  ollamaAvailable : Bool
  groqApiKey : Option String
  geminiApiKey : Option String

/-- The adapter `getAIProvider` selects (`MockProvider` is the demo
fallback of `getAIProviderWithFallback`). -/
inductive AIProviderChoice where
  | ollama (baseUrl : String) : AIProviderChoice
  | groq (apiKey : String) : AIProviderChoice
  | gemini (apiKey : String) : AIProviderChoice
  | mock : AIProviderChoice
deriving Repr, DecidableEq

/-- `process.env.OLLAMA_BASE_URL || 'http://localhost:11434'`. -/
def ollamaBaseUrlOf (env : ProviderEnv) : String :=
  match env.ollamaBaseUrl with
  | some u => if u.data.isEmpty then "http://localhost:11434" else u
  | none => "http://localhost:11434"

/-- The error message thrown when no provider is available (line 525). -/
def noProviderMsg : String :=
  "No AI provider available. Please set up one of: Ollama, Groq (GROQ_API_KEY), or Gemini (GEMINI_API_KEY)."

/-- `getAIProvider` (lines 494-531): probe Ollama; else a truthy
`GROQ_API_KEY` selects Groq; else a truthy `GEMINI_API_KEY` selects Gemini;
else throw. -/
def getAIProvider (env : ProviderEnv) : Except String AIProviderChoice :=
  if env.ollamaAvailable then Except.ok (AIProviderChoice.ollama (ollamaBaseUrlOf env))
  else if truthyEnv env.groqApiKey then Except.ok (AIProviderChoice.groq (env.groqApiKey.getD ""))
  else if truthyEnv env.geminiApiKey then Except.ok (AIProviderChoice.gemini (env.geminiApiKey.getD ""))
  else Except.error noProviderMsg

/-- `getAIProviderWithFallback` (lines 534-542): absorb the failure and fall
back to the mock demo provider. -/
def getAIProviderWithFallback (env : ProviderEnv) : AIProviderChoice :=
  match getAIProvider env with
  | Except.ok p => p
  | Except.error _ => AIProviderChoice.mock

/-- The fixed text `MockProvider.generateText` returns (line 547). -/
def mockGenerateTextResponse : String :=
  "This is a demo response. Please set up an AI provider (Ollama, Groq, or Gemini) to get real AI responses."

/-- `generateText` of a selected adapter: the network-backed providers
return whatever their backend call yields (the oracle `net`, `.error` for a
thrown request error), while `MockProvider.generateText` always succeeds
with the fixed demo text. -/
def providerGenerateText (p : AIProviderChoice) (net : String → Except String String)
    (prompt : String) : Except String String :=
  match p with
  | AIProviderChoice.mock => Except.ok mockGenerateTextResponse
  | _ => net prompt

/-! ## The schedule pipeline (`server/index.ts`)

A calendar date is abstracted to an integer day number and a timestamp to an
integer hour number (`hour = 24 * day + hourOfDay`); `Date#setDate` /
`Date#setHours` arithmetic then becomes integer addition, which is exactly
what the claims quantify over. -/

/-- One element of the JSON array the AI returns for the 14-day plan
(`generateScheduleFromStrategyAndChat`'s prompt asks for `day`, `task`,
`description`, `duration`, `priority`, `category`; absent or non-truthy
members are modelled as `none`). -/
structure RawItem where
  day : Int
  task : String
  description : Option String
  duration : Option String
  priority : Option String
  category : Option String
deriving Repr, DecidableEq

/-- A plan item after `generateScheduleFromStrategyAndChat` lines 465-473:
the AI item spread together with the assigned `date` and `status`. -/
structure PlanItem where
  day : Int
  task : String
  description : Option String
  duration : Option String
  priority : Option String
  category : Option String
  date : Int
  status : String
deriving Repr, DecidableEq

/-- The item at 0-based index `i` of the mapped plan: `...item` spread plus
`date: startDate + i days` and `status: 'planned'`. -/
def mkPlanItem (startDate : Int) (i : Nat) (item : RawItem) : PlanItem :=
  { day := item.day
    task := item.task
    description := item.description
    duration := item.duration
    priority := item.priority
    category := item.category
    date := startDate + i
    status := "planned" }

/-- The `plan.map((item, index) => …)` of lines 465-473, carrying the running
index. -/
def planWithDatesAux (startDate : Int) (i : Nat) : List RawItem → List PlanItem
  | [] => []
  | item :: rest => mkPlanItem startDate i item :: planWithDatesAux startDate (i + 1) rest

/-- `generateScheduleFromStrategyAndChat`'s date-assignment step: the parsed
AI plan mapped to dated items (the prompt construction and the AI call in
front of it are abstracted; the parsed array is the input). -/
def planWithDates (startDate : Int) (plan : List RawItem) : List PlanItem :=
  planWithDatesAux startDate 0 plan

/-- JavaScript's `a || b` for an optional string `a` and default `b`:
an absent or empty string falls through to the default. -/
def jsOrStr (a : Option String) (b : String) : String :=
  match a with
  | some s => if s.data.isEmpty then b else s
  | none => b

/-- Is `c` whitespace for the regex class `\s` (ASCII part)? -/
def isRegexWs (c : Char) : Bool := isJsWs c

/-- Does `l` start with `hour` case-insensitively? -/
def startsWithHourCI (l : List Char) : Bool :=
  listStartsWith ['h', 'o', 'u', 'r'] (l.map Char.toLower)

/-- `parseInt` on a run of decimal digits. -/
def digitsToNat (ds : List Char) : Nat :=
  ds.foldl (fun acc c => 10 * acc + (c.toNat - '0'.toNat)) 0

/-- The first match of `/(\d+)\s*hour/i` in `l`, as the value of its digit
group: the earliest position whose maximal digit run, followed by optional
whitespace, is followed by `hour` (case-insensitive). -/
def findHourNum : List Char → Option Nat
  | [] => none
  | c :: rest =>
    if c.isDigit then
      let ds := (c :: rest).takeWhile (fun d => d.isDigit)
      let after := ((c :: rest).dropWhile (fun d => d.isDigit)).dropWhile isRegexWs
      if startsWithHourCI after then some (digitsToNat ds)
      else findHourNum rest
    else findHourNum rest

/-- Lines 608-614: duration in hours for an event — the first
`/(\d+)\s*hour/i` match of the duration text, defaulting to 2 when the
duration is absent (or not truthy) or the regex does not match. -/
def parseDurationHours (dur : Option String) : Nat :=
  match dur with
  | none => 2
  | some s =>
    if s.data.isEmpty then 2
    else
      match findHourNum s.data with
      | some n => n
      | none => 2

/-- A calendar event descriptor as built by the sync-calendar handler
(lines 604-626).  `start` and `end` are hour numbers: the event starts at
09:00 of the item's date and ends `durationHours` later. -/
structure CalEvent where
  title : String
  description : String
  start : Int
  «end» : Int
  date : Int
  priority : String
  category : String
deriving Repr, DecidableEq

/-- The descriptor derived from one plan item. -/
def toCalEvent (item : PlanItem) : CalEvent :=
  let startHour : Int := 24 * item.date + 9
  let hours : Nat := parseDurationHours item.duration
  { title := item.task
    description := jsOrStr item.description item.task
    start := startHour
    «end» := startHour + hours
    date := item.date
    priority := jsOrStr item.priority "medium"
    category := jsOrStr item.category "Task" }

/-- `const calendarEvents = plan.map((item) => …)` of lines 604-626. -/
def calendarEventsOf (plan : List PlanItem) : List CalEvent :=
  plan.map toCalEvent

/-! ## Token store and Google Calendar creation (`server/index.ts` 485-724) -/

/-- The credential bundle stored per session (`tokenStore[sessionId] =
tokens`); only `access_token` is consulted by the sync handler. -/
structure Tokens where
  access_token : Option String
deriving Repr, DecidableEq

/-- The in-memory `tokenStore`, keyed by session identifier. -/
def TokenStore : Type := String → Option Tokens

/-- `delete tokenStore[sessionId]`. -/
def removeKey (store : TokenStore) (sid : String) : TokenStore :=
  fun k => if k = sid then none else store k

/-- The remote outcome of one `calendar.events.insert` call: success with an
optional `htmlLink` in the response, or a rejected promise with an error
message. -/
inductive InsertResp where
  | ok (htmlLink : Option String) : InsertResp
  | fail (msg : String) : InsertResp

/-- The per-event loop of `createEventsInGoogleCalendar` (lines 549-576):
each insert is attempted in order; a success with a link is counted and its
link collected; a failure is caught, logged and skipped — it never
propagates.  `net i` is the remote outcome for the `i`-th event. -/
def insertLoop (net : Nat → InsertResp) : List CalEvent → Nat → Nat × List String
  | [], _ => (0, [])
  | _ :: rest, i =>
    match net i with
    | InsertResp.ok (some link) =>
      let p := insertLoop net rest (i + 1)
      (p.1 + 1, link :: p.2)
    | InsertResp.ok none => insertLoop net rest (i + 1)
    | InsertResp.fail _ => insertLoop net rest (i + 1)

/-- `createEventsInGoogleCalendar` (lines 538-583): throws only when the
OAuth2 client is missing (`oauthClientOk` models the truthiness of
`oauth2Client`, which the server constructs unconditionally at startup);
otherwise it runs the per-event loop and returns `(created, eventLinks)`. -/
def createEventsInGoogleCalendar (oauthClientOk : Bool) (events : List CalEvent)
    (net : Nat → InsertResp) : Except String (Nat × List String) :=
  if oauthClientOk then Except.ok (insertLoop net events 0)
  else Except.error "OAuth2 client not initialized"

/-- Does `pat` occur in `l`?  (JavaScript's `String.prototype.includes`.) -/
def listContains (pat : List Char) : List Char → Bool
  | [] => listStartsWith pat []
  | c :: rest => listStartsWith pat (c :: rest) || listContains pat rest

/-- `s.includes(pat)`. -/
def containsSub (s pat : String) : Bool := listContains pat.data s.data

/-- JavaScript truthiness of a string. -/
def truthyStr (s : String) : Bool := !s.data.isEmpty

/-- The server-side configuration the sync-calendar handler reads:
`GOOGLE_CLIENT_ID`, `GOOGLE_CLIENT_SECRET` (both default to the empty
string) and the truthiness of the `oauth2Client` object. -/
structure SyncConfig where
  googleClientId : String
  googleClientSecret : String
  oauthClientOk : Bool
deriving Repr, DecidableEq

/-- The URL `oauth2Client.generateAuthUrl(...)` produces (calendar scope,
offline access, forced consent); its exact text comes from the Google
library and is irrelevant to the claims. -/
def genAuthUrl : String :=
  "https://accounts.google.com/o/oauth2/v2/auth?scope=calendar&access_type=offline&prompt=consent"

/-- The response of `/api/pm/automation/sync-calendar`, by shape: the
success response with `eventsCreated`/`eventLinks` (and no `needsAuth`
member), the `needsAuth: true` response with a fresh auth URL, the 500
`Google OAuth not configured` response, or the final plan-only fallback.
Every shape carries the generated plan and derived calendar events. -/
inductive SyncResult where
  | created (plan : List PlanItem) (calendarEvents : List CalEvent)
      (eventsCreated : Nat) (eventLinks : List String) : SyncResult
  | needsAuthResponse (plan : List PlanItem) (calendarEvents : List CalEvent)
      (authUrl : String) : SyncResult
  | oauthNotConfigured (plan : List PlanItem) (calendarEvents : List CalEvent) : SyncResult
  | fallbackPlan (plan : List PlanItem) (calendarEvents : List CalEvent) : SyncResult

/-- The `eventsCreated` count a response reports (absent members count as
zero). -/
def createdCountOf : SyncResult → Nat
  | SyncResult.created _ _ c _ => c
  | _ => 0

/-- Does the response carry `needsAuth: true`? -/
def needsAuthOf : SyncResult → Bool
  | SyncResult.needsAuthResponse _ _ _ => true
  | _ => false

/-- The handler state after the token/creation step (lines 629-651):
`eventsCreated`, `eventLinks`, `needsAuth`, the token store afterwards, and
the number of remote insert calls attempted. -/
structure SyncStep where
  eventsCreated : Nat
  eventLinks : List String
  needsAuth : Bool
  store : TokenStore
  attempts : Nat

/-- Lines 629-651: with a truthy `sessionId` whose stored bundle has a
truthy `access_token`, run `createEventsInGoogleCalendar`; a thrown error
whose message includes `invalid_grant` or `expired` deletes the session's
credential and sets `needsAuth`; with no session or no stored bundle,
`needsAuth` is set immediately and nothing remote is attempted. -/
def syncStep (cfg : SyncConfig) (store : TokenStore) (sessionId : Option String)
    (calendarEvents : List CalEvent) (net : Nat → InsertResp) : SyncStep :=
  match sessionId with
  | some sid =>
    if truthyStr sid then
      match store sid with
      | some tokens =>
        match tokens.access_token with
        | some tok =>
          if truthyStr tok then
            match createEventsInGoogleCalendar cfg.oauthClientOk calendarEvents net with
            | Except.ok (c, links) =>
              { eventsCreated := c, eventLinks := links, needsAuth := false
                store := store, attempts := calendarEvents.length }
            | Except.error msg =>
              if containsSub msg "invalid_grant" || containsSub msg "expired" then
                { eventsCreated := 0, eventLinks := [], needsAuth := true
                  store := removeKey store sid, attempts := 0 }
              else
                { eventsCreated := 0, eventLinks := [], needsAuth := false
                  store := store, attempts := 0 }
          else
            { eventsCreated := 0, eventLinks := [], needsAuth := false
              store := store, attempts := 0 }
        | none =>
          { eventsCreated := 0, eventLinks := [], needsAuth := false
            store := store, attempts := 0 }
      | none =>
        { eventsCreated := 0, eventLinks := [], needsAuth := true
          store := store, attempts := 0 }
    else
      { eventsCreated := 0, eventLinks := [], needsAuth := true
        store := store, attempts := 0 }
  | none =>
    { eventsCreated := 0, eventLinks := [], needsAuth := true
      store := store, attempts := 0 }

/-- Lines 654-719: choose the response shape from the step outcome —
`eventsCreated > 0` wins and returns the success shape; otherwise
`needsAuth` returns the auth-URL response (or the 500 when the OAuth client
credentials are not configured); otherwise the plan-only fallback. -/
def syncRespond (cfg : SyncConfig) (plan : List PlanItem) (calendarEvents : List CalEvent)
    (step : SyncStep) : SyncResult :=
  if step.eventsCreated > 0 then
    SyncResult.created plan calendarEvents step.eventsCreated step.eventLinks
  else if step.needsAuth then
    if !truthyStr cfg.googleClientId || !truthyStr cfg.googleClientSecret || !cfg.oauthClientOk then
      SyncResult.oauthNotConfigured plan calendarEvents
    else
      SyncResult.needsAuthResponse plan calendarEvents genAuthUrl
  else SyncResult.fallbackPlan plan calendarEvents

/-- `CalendarMaterializer.materialize`: the sync-calendar handler from the
generated plan onward (generation itself is the pipeline upstream).  Returns
the response, the token store afterwards, and how many remote insert calls
were attempted. -/
def syncCalendarCore (cfg : SyncConfig) (store : TokenStore) (sessionId : Option String)
    (plan : List PlanItem) (net : Nat → InsertResp) : SyncResult × TokenStore × Nat :=
  let calendarEvents := calendarEventsOf plan
  let step := syncStep cfg store sessionId calendarEvents net
  (syncRespond cfg plan calendarEvents step, step.store, step.attempts)

/-! ## Concrete instances used by the evaluations below -/

/-- A text-generation oracle that answers the bare prompt `p` with one JSON
object and every other prompt with a different one; it separates a pipeline
that extends the prompt from one that does not. -/
def genC6 : String → String :=
  fun s => if s = "p" then "\x7b\"b\":2\x7d" else "\x7b\"a\":1\x7d"

/-- An oracle that never returns JSON. -/
def genNoJson : String → String := fun _ => "no json here"

/-- An AI plan item whose `day` member (99) disagrees with its position. -/
def rawCx : RawItem :=
  { day := 99, task := "t", description := none, duration := none,
    priority := none, category := none }

/-- A well-formed plan item for day `i + 1` with a two-hour duration. -/
def mkTestItem (i : Nat) : PlanItem :=
  { day := (i : Int) + 1, task := "task", description := none,
    duration := some "2 hours", priority := none, category := none,
    date := (i : Int), status := "planned" }

/-- A 14-item plan. -/
def plan14 : List PlanItem := (List.range 14).map mkTestItem

/-- A token store holding one credential for `session_1`. -/
def storeC1 : TokenStore :=
  fun k => if k = "session_1" then some { access_token := some "tok" } else none

/-- A token store holding no credentials. -/
def emptyStore : TokenStore := fun _ => none

/-- A remote calendar that rejects the first two inserts with the Google
expired-grant error and accepts the remaining ones. -/
def netC1 : Nat → InsertResp :=
  fun i =>
    if i < 2 then InsertResp.fail "invalid_grant: Token has been expired or revoked."
    else InsertResp.ok (some "https://calendar.google.com/event?eid=1")

/-- A remote calendar that rejects every insert. -/
def netFail : Nat → InsertResp := fun _ => InsertResp.fail "boom"

/-- A sync configuration with OAuth client credentials present. -/
def cfgOk : SyncConfig :=
  { googleClientId := "id", googleClientSecret := "secret", oauthClientOk := true }

/-- An environment with every backend configured and the probe succeeding. -/
def envAll : ProviderEnv :=
  { ollamaBaseUrl := none, ollamaAvailable := true,
    groqApiKey := some "gk", geminiApiKey := some "mk" }

/-- An environment with the probe failing but both cloud keys set. -/
def envGroq : ProviderEnv :=
  { ollamaBaseUrl := none, ollamaAvailable := false,
    groqApiKey := some "gk", geminiApiKey := some "mk" }

/-- An environment with the probe failing and only the Gemini key set. -/
def envGemini : ProviderEnv :=
  { ollamaBaseUrl := none, ollamaAvailable := false,
    groqApiKey := none, geminiApiKey := some "mk" }

/-- An environment with nothing configured and the probe failing. -/
def envNone : ProviderEnv :=
  { ollamaBaseUrl := none, ollamaAvailable := false,
    groqApiKey := none, geminiApiKey := none }

/-- A plan item with a three-hour duration text. -/
def itemDur3 : PlanItem := { mkTestItem 0 with duration := some "3 hours" }

/-- A plan item whose duration text has no hour match. -/
def itemHalf : PlanItem := { mkTestItem 0 with duration := some "half day" }

/-- A plan item with no duration text. -/
def itemNoDur : PlanItem := { mkTestItem 0 with duration := none }

/-! ## Provider selection (claims C4, C5, C6) -/

/-- C4: `selectProvider` follows the fixed priority order — a successful
local-inference probe selects Ollama regardless of configured credentials; a
failed probe with a truthy Groq key selects Groq; a failed probe, no Groq
key and a truthy Gemini key selects Gemini. -/
theorem C4_selectProvider_priority (env : ProviderEnv) :
    (env.ollamaAvailable = true →
      getAIProvider env = Except.ok (AIProviderChoice.ollama (ollamaBaseUrlOf env)))
    ∧ (env.ollamaAvailable = false → truthyEnv env.groqApiKey = true →
      getAIProvider env = Except.ok (AIProviderChoice.groq (env.groqApiKey.getD "")))
    ∧ (env.ollamaAvailable = false → truthyEnv env.groqApiKey = false →
      truthyEnv env.geminiApiKey = true →
      getAIProvider env = Except.ok (AIProviderChoice.gemini (env.geminiApiKey.getD ""))) := by
  refine ⟨fun h1 => ?_, fun h1 h2 => ?_, fun h1 h2 h3 => ?_⟩
  · simp [getAIProvider, h1]
  · simp [getAIProvider, h1, h2]
  · simp [getAIProvider, h1, h2, h3]

/-- Witness: C4 at concrete environments exercising each branch. -/
theorem C4_selectProvider_priority_witness :
    getAIProvider envAll = Except.ok (AIProviderChoice.ollama "http://localhost:11434")
    ∧ getAIProvider envGroq = Except.ok (AIProviderChoice.groq "gk")
    ∧ getAIProvider envGemini = Except.ok (AIProviderChoice.gemini "mk") :=
  ⟨(C4_selectProvider_priority envAll).1 rfl,
   (C4_selectProvider_priority envGroq).2.1 rfl rfl,
   (C4_selectProvider_priority envGemini).2.2 rfl rfl rfl⟩

/-- C5: with no credentials configured and local inference unreachable,
lenient selection returns the mock demo adapter, whose `generateText`
always succeeds with the fixed placeholder text, while strict selection
throws the no-provider-available error. -/
theorem C5_lenient_never_fails (env : ProviderEnv)
    (h1 : env.ollamaAvailable = false)
    (h2 : truthyEnv env.groqApiKey = false)
    (h3 : truthyEnv env.geminiApiKey = false) :
    getAIProviderWithFallback env = AIProviderChoice.mock
    ∧ getAIProvider env = Except.error noProviderMsg
    ∧ ∀ (net : String → Except String String) (prompt : String),
        providerGenerateText AIProviderChoice.mock net prompt
          = Except.ok mockGenerateTextResponse := by
  refine ⟨?_, ?_, fun _ _ => rfl⟩ <;>
    simp [getAIProviderWithFallback, getAIProvider, h1, h2, h3]

/-- Witness: C5 at the empty environment. -/
theorem C5_lenient_never_fails_witness :
    getAIProviderWithFallback envNone = AIProviderChoice.mock
    ∧ providerGenerateText AIProviderChoice.mock (fun _ => Except.error "down") "hello"
        = Except.ok mockGenerateTextResponse :=
  ⟨(C5_lenient_never_fails envNone rfl rfl rfl).1,
   (C5_lenient_never_fails envNone rfl rfl rfl).2.2 _ _⟩

/-- C6 fails as stated: `GeminiProvider.generateJSON` does not extend the
prompt with the return-only-JSON instruction — at the oracle `genC6` its
result differs from the extended-prompt pipeline the claim prescribes for
every variant. -/
theorem C6_counterexample :
    geminiGenerateJSON genC6 "p" ≠ extractJSON (genC6 ("p" ++ jsonInstruction)) := by
  rw [show geminiGenerateJSON genC6 "p" = some (JValue.obj [("b", JValue.num "2")]) from rfl,
      show extractJSON (genC6 ("p" ++ jsonInstruction))
          = some (JValue.obj [("a", JValue.num "1")]) from rfl]
  simp

/-- C6 (amended): every variant's `generateJSON` delegates to
`generateText` piped through the response extractor, and a parse failure is
surfaced as an error, never a value; but only Ollama and Groq extend the
prompt with the return-only-JSON instruction — Gemini passes the prompt
unmodified. -/
theorem C6_generateJSON_delegation (gen : String → String) (prompt : String) :
    ollamaGenerateJSON gen prompt = extractJSON (gen (prompt ++ jsonInstruction))
    ∧ groqGenerateJSON gen prompt = extractJSON (gen (prompt ++ jsonInstruction))
    ∧ geminiGenerateJSON gen prompt = extractJSON (gen prompt)
    ∧ (extractJSON (gen (prompt ++ jsonInstruction)) = none →
        ollamaGenerateJSON gen prompt = none ∧ groqGenerateJSON gen prompt = none)
    ∧ (extractJSON (gen prompt) = none → geminiGenerateJSON gen prompt = none) :=
  ⟨rfl, rfl, rfl, fun h => ⟨h, h⟩, fun h => h⟩

/-- Witness: C6 (amended) at an oracle with no recoverable JSON — the
failure is surfaced by the variants, not swallowed. -/
theorem C6_generateJSON_delegation_witness :
    ollamaGenerateJSON genNoJson "q" = none ∧ geminiGenerateJSON genNoJson "q" = none :=
  ⟨((C6_generateJSON_delegation genNoJson "q").2.2.2.1 rfl).1,
   (C6_generateJSON_delegation genNoJson "q").2.2.2.2 rfl⟩

/-! ## Schedule generation (claims C7, C9) -/

/-- Indexing into the date-assigning map: the item at position `i` is the
input item at position `i` stamped with `startDate + (j + i)` where `j` is
the running offset. -/
theorem planWithDatesAux_getElem? (startDate : Int) (j : Nat) (plan : List RawItem) (i : Nat) :
    (planWithDatesAux startDate j plan)[i]? = (plan[i]?).map (mkPlanItem startDate (j + i)) := by
  induction plan generalizing j i with
  | nil => simp [planWithDatesAux]
  | cons a rest ih =>
    cases i with
    | zero => simp [planWithDatesAux]
    | succ i =>
      simp only [planWithDatesAux, List.getElem?_cons_succ, ih (j + 1) i]
      have : j + 1 + i = j + (i + 1) := by omega
      rw [this]

/-- C7 fails as stated: the code assigns dates by array position, not by the
item's `day` member — for the plan `[rawCx]` (whose single item carries
`day = 99`) and `startDate = 0`, the produced item has date 0 while
`startDate + (day - 1)` is 98. -/
theorem C7_counterexample :
    ((planWithDates 0 [rawCx])[0]?).map (fun it => (it.date, it.day, it.status))
      = some (0, 99, "planned")
    ∧ ¬ ((0 : Int) = 0 + ((99 : Int) - 1)) :=
  ⟨rfl, by decide⟩

/-- C7 (amended): every item of the generator's output is stamped with
`date = startDate + index` (0-based position) and `status = "planned"`;
consequently `date = startDate + (day - 1)` holds exactly when the item's
`day` member equals its 1-based position, as the plan schema prescribes. -/
theorem C7_dates_by_position (startDate : Int) (plan : List RawItem) (i : Nat)
    (it : PlanItem) (h : (planWithDates startDate plan)[i]? = some it) :
    it.date = startDate + i ∧ it.status = "planned"
    ∧ (it.day = (i : Int) + 1 → it.date = startDate + (it.day - 1)) := by
  rw [planWithDates, planWithDatesAux_getElem?] at h
  rcases Option.map_eq_some'.1 h with ⟨item, _, rfl⟩
  refine ⟨by simp [mkPlanItem], rfl, fun hday => ?_⟩
  simp only [mkPlanItem] at hday ⊢
  omega

/-- Witness: C7 (amended) on a two-item plan whose `day` members match
their positions. -/
theorem C7_dates_by_position_witness :
    ∃ it : PlanItem,
      (planWithDates 5 [{ rawCx with day := 1 }, { rawCx with day := 2 }])[1]? = some it
      ∧ it.date = 5 + 1 ∧ it.status = "planned" ∧ it.date = 5 + (it.day - 1) := by
  refine ⟨mkPlanItem 5 1 { rawCx with day := 2 }, rfl, ?_⟩
  have h := C7_dates_by_position 5 [{ rawCx with day := 1 }, { rawCx with day := 2 }] 1
    (mkPlanItem 5 1 { rawCx with day := 2 }) rfl
  exact ⟨h.1, h.2.1, h.2.2 (by decide)⟩

/-- The digit-group value of the first `/(\d+)\s*hour/i` match, for a
duration text that is a digit run followed by a space and `hours`. -/
theorem findHourNum_append_hours (ds : List Char) (h1 : ds ≠ [])
    (h2 : ∀ c ∈ ds, c.isDigit = true) :
    findHourNum (ds ++ " hours".data) = some (digitsToNat ds) := by
  cases ds with
  | nil => cases h1 rfl
  | cons d ds' =>
    have hd : d.isDigit = true := h2 d (by simp)
    have hall : ∀ c ∈ ds', c.isDigit = true := fun c hc => h2 c (by simp [hc])
    have htake : (d :: (ds' ++ [' ', 'h', 'o', 'u', 'r', 's'])).takeWhile
        (fun c => c.isDigit) = d :: ds' := by
      rw [List.takeWhile_cons_of_pos hd, List.takeWhile_append_of_pos hall]
      simp
    have hdrop : (d :: (ds' ++ [' ', 'h', 'o', 'u', 'r', 's'])).dropWhile
        (fun c => c.isDigit) = [' ', 'h', 'o', 'u', 'r', 's'] := by
      rw [List.dropWhile_cons_of_pos hd, List.dropWhile_append_of_pos hall]
      rfl
    simp only [show " hours".data = [' ', 'h', 'o', 'u', 'r', 's'] from rfl,
      List.cons_append, findHourNum, hd, if_pos, List.append_eq]
    rw [htake, hdrop]
    simp [show (([' ', 'h', 'o', 'u', 'r', 's'] : List Char).dropWhile isRegexWs)
        = ['h', 'o', 'u', 'r', 's'] from rfl,
      show startsWithHourCI ['h', 'o', 'u', 'r', 's'] = true from rfl]

/-- C9: the calendar event descriptors are derived 1:1 from the plan items
(same length, positionwise image of `toCalEvent`), each event starts at
09:00 of its item's date, and its end is its start plus the hours parsed
from the duration text by `/(\d+)\s*hour/i` — the digit group's value on a
`<n> hours` text, and the 2-hour default when the duration is absent or the
regex finds no match. -/
theorem C9_event_derivation (plan : List PlanItem) (i : Nat) :
    (calendarEventsOf plan).length = plan.length
    ∧ (calendarEventsOf plan)[i]? = (plan[i]?).map toCalEvent
    ∧ (∀ item : PlanItem,
        (toCalEvent item).start = 24 * item.date + 9
        ∧ (toCalEvent item).«end»
            = (toCalEvent item).start + (parseDurationHours item.duration : Int)
        ∧ (item.duration = none → parseDurationHours item.duration = 2)
        ∧ (∀ s, item.duration = some s → findHourNum s.data = none →
            parseDurationHours item.duration = 2)
        ∧ (∀ ds, item.duration = some (String.mk (ds ++ " hours".data)) → ds ≠ [] →
            (∀ c ∈ ds, c.isDigit = true) →
            parseDurationHours item.duration = digitsToNat ds)) := by
  refine ⟨by simp [calendarEventsOf], by simp [calendarEventsOf],
    fun item => ⟨rfl, rfl, fun h => by rw [h]; rfl, ?_, ?_⟩⟩
  · intro s hs hfind
    rw [hs]
    by_cases he : s.data.isEmpty <;> simp [parseDurationHours, he, hfind]
  · intro ds hds hne hdig
    rw [hds]
    cases ds with
    | nil => cases hne rfl
    | cons d ds' =>
      have hfind : findHourNum (d :: (ds' ++ [' ', 'h', 'o', 'u', 'r', 's']))
          = some (digitsToNat (d :: ds')) := findHourNum_append_hours (d :: ds') hne hdig
      simp [parseDurationHours, hfind]

/-- Witness: C9 on concrete durations — `3 hours` parses to three hours,
`half day` and a missing duration fall back to two. -/
theorem C9_event_derivation_witness :
    (toCalEvent itemDur3).«end» = (toCalEvent itemDur3).start + 3
    ∧ parseDurationHours itemHalf.duration = 2
    ∧ parseDurationHours itemNoDur.duration = 2 := by
  have h3 := (C9_event_derivation [itemDur3] 0).2.2 itemDur3
  have hd : parseDurationHours itemDur3.duration = 3 := by
    have hds := h3.2.2.2.2 ['3'] rfl (by decide) (by decide)
    exact hds
  refine ⟨?_, ?_, ?_⟩
  · rw [h3.2.1, hd]; norm_num
  · exact ((C9_event_derivation [itemHalf] 0).2.2 itemHalf).2.2.2.1 "half day" rfl rfl
  · exact ((C9_event_derivation [itemNoDur] 0).2.2 itemNoDur).2.2.1 rfl

/-! ## Calendar materialization (claims C8, C10, C1) -/

/-- The response chooser in isolation: a `needsAuth` response reports a zero
created count, and a positive created count forces the success shape. -/
theorem syncRespond_cases (cfg : SyncConfig) (plan : List PlanItem)
    (evs : List CalEvent) (step : SyncStep) :
    (needsAuthOf (syncRespond cfg plan evs step) = true →
      createdCountOf (syncRespond cfg plan evs step) = 0)
    ∧ (0 < createdCountOf (syncRespond cfg plan evs step) →
        ∃ c links, syncRespond cfg plan evs step = SyncResult.created plan evs c links) := by
  unfold syncRespond
  by_cases h : step.eventsCreated > 0
  · rw [if_pos h]
    exact ⟨fun hna => by simp [needsAuthOf] at hna, fun _ => ⟨_, _, rfl⟩⟩
  · rw [if_neg h]
    split_ifs <;> simp [needsAuthOf, createdCountOf]

/-- C8: a session identifier with no stored credential makes the handler
report `needsAuth = true` with a fresh auth URL immediately: zero events
created, zero remote insert calls attempted, and the token store
untouched. -/
theorem C8_no_credential_needsAuth (cfg : SyncConfig) (store : TokenStore) (sid : String)
    (plan : List PlanItem) (net : Nat → InsertResp)
    (hsid : truthyStr sid = true) (hstore : store sid = none)
    (hid : truthyStr cfg.googleClientId = true)
    (hsecret : truthyStr cfg.googleClientSecret = true)
    (hok : cfg.oauthClientOk = true) :
    (syncCalendarCore cfg store (some sid) plan net).1
        = SyncResult.needsAuthResponse plan (calendarEventsOf plan) genAuthUrl
    ∧ needsAuthOf (syncCalendarCore cfg store (some sid) plan net).1 = true
    ∧ createdCountOf (syncCalendarCore cfg store (some sid) plan net).1 = 0
    ∧ (syncCalendarCore cfg store (some sid) plan net).2.2 = 0
    ∧ (syncCalendarCore cfg store (some sid) plan net).2.1 = store := by
  refine ⟨?_, ?_, ?_, ?_, ?_⟩ <;>
    simp [syncCalendarCore, syncStep, syncRespond, needsAuthOf, createdCountOf,
      hsid, hstore, hid, hsecret, hok]

/-- Witness: C8 on the empty token store. -/
theorem C8_no_credential_needsAuth_witness :
    needsAuthOf (syncCalendarCore cfgOk emptyStore (some "s1") [] netFail).1 = true
    ∧ createdCountOf (syncCalendarCore cfgOk emptyStore (some "s1") [] netFail).1 = 0
    ∧ (syncCalendarCore cfgOk emptyStore (some "s1") [] netFail).2.2 = 0 :=
  ⟨(C8_no_credential_needsAuth cfgOk emptyStore "s1" [] netFail rfl rfl rfl rfl rfl).2.1,
   (C8_no_credential_needsAuth cfgOk emptyStore "s1" [] netFail rfl rfl rfl rfl rfl).2.2.1,
   (C8_no_credential_needsAuth cfgOk emptyStore "s1" [] netFail rfl rfl rfl rfl rfl).2.2.2.1⟩

/-- C10: the handler's response never reports both a positive created count
and `needsAuth = true` — a `needsAuth` response carries a zero count, and
any positive count forces the success shape, which has no `needsAuth`
member. -/
theorem C10_created_needsAuth_exclusive (cfg : SyncConfig) (store : TokenStore)
    (sessionId : Option String) (plan : List PlanItem) (net : Nat → InsertResp) :
    (needsAuthOf (syncCalendarCore cfg store sessionId plan net).1 = true →
      createdCountOf (syncCalendarCore cfg store sessionId plan net).1 = 0)
    ∧ ¬ (0 < createdCountOf (syncCalendarCore cfg store sessionId plan net).1
        ∧ needsAuthOf (syncCalendarCore cfg store sessionId plan net).1 = true)
    ∧ (0 < createdCountOf (syncCalendarCore cfg store sessionId plan net).1 →
        ∃ c links, (syncCalendarCore cfg store sessionId plan net).1
          = SyncResult.created plan (calendarEventsOf plan) c links) := by
  have h : (needsAuthOf (syncCalendarCore cfg store sessionId plan net).1 = true →
      createdCountOf (syncCalendarCore cfg store sessionId plan net).1 = 0)
      ∧ (0 < createdCountOf (syncCalendarCore cfg store sessionId plan net).1 →
        ∃ c links, (syncCalendarCore cfg store sessionId plan net).1
          = SyncResult.created plan (calendarEventsOf plan) c links) :=
    syncRespond_cases cfg plan (calendarEventsOf plan)
      (syncStep cfg store sessionId (calendarEventsOf plan) net)
  exact ⟨h.1, fun hcn => by have h0 := h.1 hcn.2; have h1 := hcn.1; omega, h.2⟩

/-- Witness: C10 at a concrete run that reports `needsAuth`. -/
theorem C10_created_needsAuth_exclusive_witness :
    createdCountOf (syncCalendarCore cfgOk emptyStore (some "s2") [] netFail).1 = 0 :=
  (C10_created_needsAuth_exclusive cfgOk emptyStore (some "s2") [] netFail).1 rfl

/-- C1 and the spec describe the intended expired-grant handling, but the
per-event `try/catch` inside `createEventsInGoogleCalendar` swallows every
insert error, so the handler's `invalid_grant` branch cannot fire for
per-event failures: on a 14-item plan with a stored credential where the
remote rejects 2 inserts with the expired-grant error and accepts 12, the
code returns the success shape with `eventsCreated = 12`, reports no
`needsAuth`, and leaves the session credential in the token store. -/
theorem C1_expired_grant_swallowed :
    createdCountOf (syncCalendarCore cfgOk storeC1 (some "session_1") plan14 netC1).1 = 12
    ∧ needsAuthOf (syncCalendarCore cfgOk storeC1 (some "session_1") plan14 netC1).1 = false
    ∧ (syncCalendarCore cfgOk storeC1 (some "session_1") plan14 netC1).2.1 "session_1"
        = some { access_token := some "tok" }
    ∧ (syncCalendarCore cfgOk storeC1 (some "session_1") plan14 netC1).2.2 = 14
    ∧ plan14.length = 14 :=
  ⟨rfl, rfl, rfl, rfl, rfl⟩

/-! ## The response extractor (claims C2, C3) -/

/-- Dropping a prefix stops no later than the first character the predicate
rejects: the remainder keeps a marker character and everything after it, and
whatever survives in front of the marker came from the original prefix. -/
theorem dropWhile_front_decomp (P : Char → Bool) (p : List Char) (d : Char) (t : List Char)
    (hd : P d = false) :
    ∃ p1, List.dropWhile P (p ++ d :: t) = p1 ++ d :: t ∧ ∀ c ∈ p1, c ∈ p := by
  induction p with
  | nil => exact ⟨[], by simp [List.dropWhile_cons, hd], by simp⟩
  | cons a p' ih =>
    by_cases ha : P a = true
    · obtain ⟨p1, h1, hsub⟩ := ih
      exact ⟨p1, by rw [List.cons_append, List.dropWhile_cons_of_pos ha, h1],
        fun c hc => List.mem_cons_of_mem a (hsub c hc)⟩
    · refine ⟨a :: p', ?_, fun c hc => hc⟩
      rw [List.cons_append, List.dropWhile_cons]
      simp [ha]

/-- Trimming a list that surrounds a braced span with brace-free padding
yields the span with (sub)lists of the padding on either side. -/
theorem trimBoth_decomp (P : Char → Bool) (p inner q : List Char)
    (hlb : P '\x7b' = false) (hrb : P '\x7d' = false) :
    ∃ p1 q1, trimBoth P (p ++ ('\x7b' :: inner) ++ ('\x7d' :: q))
        = p1 ++ ('\x7b' :: inner) ++ ('\x7d' :: q1)
      ∧ (∀ c ∈ p1, c ∈ p) ∧ (∀ c ∈ q1, c ∈ q) := by
  unfold trimBoth
  rw [show p ++ ('\x7b' :: inner) ++ ('\x7d' :: q) = p ++ '\x7b' :: (inner ++ '\x7d' :: q) by
    simp]
  obtain ⟨p1, h1, hp1⟩ := dropWhile_front_decomp P p '\x7b' (inner ++ '\x7d' :: q) hlb
  rw [h1]
  rw [show p1 ++ '\x7b' :: (inner ++ '\x7d' :: q) = (p1 ++ '\x7b' :: inner) ++ '\x7d' :: q by
    simp]
  rw [List.reverse_append, List.reverse_cons, List.append_assoc, List.singleton_append]
  obtain ⟨q1r, h2, hq1⟩ := dropWhile_front_decomp P q.reverse '\x7d'
    ((p1 ++ '\x7b' :: inner).reverse) hrb
  rw [h2]
  refine ⟨p1, q1r.reverse, ?_, hp1, ?_⟩
  · rw [show q1r ++ '\x7d' :: (p1 ++ '\x7b' :: inner).reverse
        = (q1r ++ ['\x7d']) ++ (p1 ++ '\x7b' :: inner).reverse by simp]
    rw [List.reverse_append, List.reverse_reverse]
    simp
  · intro c hc
    exact List.mem_reverse.1 (hq1 c (List.mem_reverse.1 hc))

/-- A text whose first character is not a backtick matches neither fence
test. -/
theorem fence_tests_false (l : List Char)
    (h : ∀ ch, l.head? = some ch → ch ≠ '\x60') :
    startsWithFenceJson l = false ∧ startsWithTicks l = false := by
  cases l with
  | nil => exact ⟨rfl, rfl⟩
  | cons a m =>
    have ha : a ≠ '\x60' := h a rfl
    have hbeq : ('\x60' == a) = false := beq_eq_false_iff_ne.mpr (Ne.symm ha)
    constructor
    · show listStartsWith ['\x60', '\x60', '\x60', 'j', 's', 'o', 'n'] (a :: m) = false
      simp [listStartsWith, hbeq]
    · show listStartsWith ['\x60', '\x60', '\x60'] (a :: m) = false
      simp [listStartsWith, hbeq]

/-- The greedy brace regex on brace-free padding around a braced span picks
exactly the span: the first opening brace through the last closing brace. -/
theorem braceSpan_decomp (p1 inner q1 : List Char)
    (hp : ∀ c ∈ p1, c ≠ '\x7b') (hq : ∀ c ∈ q1, c ≠ '\x7d') :
    braceSpan (p1 ++ ('\x7b' :: inner) ++ ('\x7d' :: q1))
      = some ('\x7b' :: (inner ++ ['\x7d'])) := by
  have hall : ∀ c ∈ p1, (!(c == '\x7b')) = true := by
    intro c hc
    simp [beq_eq_false_iff_ne.mpr (hp c hc)]
  have hallq : ∀ c ∈ q1.reverse, (!(c == '\x7d')) = true := by
    intro c hc
    simp [beq_eq_false_iff_ne.mpr (hq c (List.mem_reverse.1 hc))]
  have hs : List.dropWhile (fun c => !(c == '\x7b'))
      (p1 ++ ('\x7b' :: inner) ++ ('\x7d' :: q1)) = ('\x7b' :: inner) ++ ('\x7d' :: q1) := by
    rw [List.append_assoc, List.dropWhile_append_of_pos hall, List.cons_append,
      List.dropWhile_cons]
    simp
  have ht : List.dropWhile (fun c => !(c == '\x7d'))
      ((('\x7b' :: inner) ++ ('\x7d' :: q1)).reverse)
      = '\x7d' :: ('\x7b' :: inner).reverse := by
    rw [List.reverse_append, List.reverse_cons, List.append_assoc, List.singleton_append,
      List.dropWhile_append_of_pos hallq, List.dropWhile_cons]
    simp
  have haux : braceSpanAux (p1 ++ ('\x7b' :: inner) ++ ('\x7d' :: q1))
      = ('\x7b' :: inner) ++ ['\x7d'] := by
    unfold braceSpanAux
    rw [hs, ht]
    simp
  unfold braceSpan
  rw [haux]
  simp

/-- C2 fails as stated: a bare JSON array embedded in prose is not
recovered — the fallback regex only looks for a brace span, so
`extractJSON` throws even though the text contains exactly one balanced
bracket span that parses. -/
theorem C2_counterexample :
    extractJSON "The answer is [1, 2]" = none
    ∧ jsonParse "[1, 2]" = some (JValue.arr [JValue.num "1", JValue.num "2"]) :=
  ⟨rfl, rfl⟩

/-- C2 (amended): when the direct parse of the trimmed, fence-stripped text
fails, `extractJSON` retries on the greedy span from the first `\x7b` to
the last `\x7d` only — there is no bracket-span fallback.  For a text made
of one braced span surrounded by brace-free prose (backtick-free in front),
that span is recovered and returned parsed. -/
theorem C2_span_recovery (p inner q : List Char) (v : JValue)
    (hp : ∀ c ∈ p, c ≠ '\x7b' ∧ c ≠ '\x7d' ∧ c ≠ '\x60')
    (hq : ∀ c ∈ q, c ≠ '\x7b' ∧ c ≠ '\x7d')
    (hfail : jsonParseL (jsTrim (p ++ ('\x7b' :: inner) ++ ('\x7d' :: q))) = none)
    (hspan : jsonParseL ('\x7b' :: (inner ++ ['\x7d'])) = some v) :
    extractJSON (String.mk (p ++ ('\x7b' :: inner) ++ ('\x7d' :: q))) = some v := by
  obtain ⟨p1, q1, htrim, hp1, hq1⟩ := trimBoth_decomp isJsWs p inner q (by decide) (by decide)
  have htrim' : jsTrim (p ++ ('\x7b' :: inner) ++ ('\x7d' :: q))
      = p1 ++ ('\x7b' :: inner) ++ ('\x7d' :: q1) := htrim
  have hhead : ∀ ch, (p1 ++ ('\x7b' :: inner) ++ ('\x7d' :: q1)).head? = some ch →
      ch ≠ '\x60' := by
    cases p1 with
    | nil =>
      intro ch hch
      simp at hch
      subst hch
      decide
    | cons a p1' =>
      intro ch hch
      simp at hch
      subst hch
      exact (hp a (hp1 a (by simp))).2.2
  have hfence := fence_tests_false _ hhead
  have hstrip : fenceStrip (p1 ++ ('\x7b' :: inner) ++ ('\x7d' :: q1))
      = p1 ++ ('\x7b' :: inner) ++ ('\x7d' :: q1) := by
    unfold fenceStrip
    rw [hfence.1, hfence.2]
    simp
  have hfail' : jsonParseL (p1 ++ ('\x7b' :: inner) ++ ('\x7d' :: q1)) = none := by
    rw [← htrim']
    exact hfail
  have hbspan : braceSpan (p1 ++ ('\x7b' :: inner) ++ ('\x7d' :: q1))
      = some ('\x7b' :: (inner ++ ['\x7d'])) :=
    braceSpan_decomp p1 inner q1 (fun c hc => (hp c (hp1 c hc)).1)
      (fun c hc => (hq c (hq1 c hc)).2)
  show extractJSONL (p ++ ('\x7b' :: inner) ++ ('\x7d' :: q)) = some v
  unfold extractJSONL
  rw [htrim', hstrip, hfail', hbspan]
  exact hspan

/-- Witness: C2 (amended) on concrete prose around one JSON object. -/
theorem C2_span_recovery_witness :
    extractJSON "The answer is \x7b\"a\": 1\x7d ok"
      = some (JValue.obj [("a", JValue.num "1")]) :=
  C2_span_recovery "The answer is ".data "\"a\": 1".data " ok".data
    (JValue.obj [("a", JValue.num "1")]) (by decide) (by decide) rfl rfl

/-- Dropping while `P` holds leaves a list whose head `P` rejects
unchanged. -/
theorem dropWhile_eq_self_of_head (P : Char → Bool) (l : List Char)
    (h : ∀ c, l.head? = some c → P c = false) : List.dropWhile P l = l := by
  cases l with
  | nil => rfl
  | cons a m =>
    rw [List.dropWhile_cons]
    simp [h a rfl]

/-- Trimming does nothing to a list whose first and last characters are not
trimmed. -/
theorem trimBoth_eq_self (P : Char → Bool) (l : List Char)
    (h1 : ∀ c, l.head? = some c → P c = false)
    (h2 : ∀ c, l.getLast? = some c → P c = false) :
    trimBoth P l = l := by
  unfold trimBoth
  rw [dropWhile_eq_self_of_head P l h1]
  rw [dropWhile_eq_self_of_head P l.reverse
    (fun c hc => h2 c (by rwa [List.head?_reverse] at hc))]
  exact List.reverse_reverse l

/-- The json-fence replace walks over a character that cannot start the
pattern. -/
theorem replJsonFence_cons_ne (c : Char) (l : List Char) (h : c ≠ '\x60') :
    replJsonFence (c :: l) = c :: replJsonFence l := by
  rw [replJsonFence.eq_def]
  split <;> simp_all [List.cons.injEq]

/-- The plain-fence replace walks over a character that cannot start the
pattern. -/
theorem replTicks_cons_ne (c : Char) (l : List Char) (h : c ≠ '\x60') :
    replTicks (c :: l) = c :: replTicks l := by
  rw [replTicks.eq_def]
  split <;> simp_all [List.cons.injEq]

/-- The json-fence replace leaves a backtick-free block in place. -/
theorem replJsonFence_append_of_no_tick (a t : List Char) (h : ∀ c ∈ a, c ≠ '\x60') :
    replJsonFence (a ++ t) = a ++ replJsonFence t := by
  induction a with
  | nil => simp
  | cons c a' ih =>
    rw [List.cons_append, replJsonFence_cons_ne c _ (h c (by simp)),
      ih (fun d hd => h d (by simp [hd])), List.cons_append]

/-- The plain-fence replace leaves a backtick-free block in place. -/
theorem replTicks_append_of_no_tick (a t : List Char) (h : ∀ c ∈ a, c ≠ '\x60') :
    replTicks (a ++ t) = a ++ replTicks t := by
  induction a with
  | nil => simp
  | cons c a' ih =>
    rw [List.cons_append, replTicks_cons_ne c _ (h c (by simp)),
      ih (fun d hd => h d (by simp [hd])), List.cons_append]

/-- The trailing-fence strip does nothing to a backtick-free text. -/
theorem stripTrailingFence_eq_self (l : List Char) (h : ∀ c ∈ l, c ≠ '\x60') :
    stripTrailingFence l = l := by
  unfold stripTrailingFence
  split
  · next r heq =>
    exfalso
    have hm : '\x60' ∈ l.reverse := by
      rw [heq]
      simp
    exact h '\x60' (List.mem_reverse.1 hm) rfl
  · next r heq =>
    exfalso
    have hm : '\x60' ∈ l.reverse := by
      rw [heq]
      simp
    exact h '\x60' (List.mem_reverse.1 hm) rfl
  · rfl

/-- The trailing-fence strip removes a final newline-``` suffix. -/
theorem stripTrailingFence_strip (c : List Char) :
    stripTrailingFence (c ++ ['\n', '\x60', '\x60', '\x60']) = c ++ ['\n'] := by
  unfold stripTrailingFence
  rw [show (c ++ ['\n', '\x60', '\x60', '\x60']).reverse
      = '\x60' :: '\x60' :: '\x60' :: '\n' :: c.reverse by simp]
  show ('\n' :: c.reverse).reverse = c ++ ['\n']
  simp

/-- Appending a trimmed character on the right does not change a two-sided
trim. -/
theorem trimBoth_append_ws (P : Char → Bool) (l : List Char) (c : Char) (hc : P c = true) :
    trimBoth P (l ++ [c]) = trimBoth P l := by
  unfold trimBoth
  rw [List.dropWhile_append]
  by_cases h : (List.dropWhile P l).isEmpty
  · rw [if_pos h]
    rw [show List.dropWhile P [c] = List.dropWhile P [] by rw [List.dropWhile_cons]; simp [hc]]
    rw [List.isEmpty_iff.1 h]
    simp
  · rw [if_neg h]
    rw [show (List.dropWhile P l ++ [c]).reverse = c :: (List.dropWhile P l).reverse by simp]
    rw [List.dropWhile_cons]
    simp [hc]

/-- `JSON.parse` ignores a trailing newline. -/
theorem jsonParseL_append_newline (l : List Char) :
    jsonParseL (l ++ ['\n']) = jsonParseL l := by
  unfold jsonParseL
  rw [trimBoth_append_ws isJsonWs l '\n' (by decide)]

/-- C3 fails as stated: with a language tag other than `json` (here
`javascript`) only the backticks are removed, the tag text survives, and a
fenced JSON array cannot be recovered — `extractJSON` throws although the
unwrapped content parses. -/
theorem C3_counterexample :
    extractJSON "```javascript\n[1, 2]\n```" = none
    ∧ jsonParse "[1, 2]" = some (JValue.arr [JValue.num "1", JValue.num "2"]) :=
  ⟨rfl, rfl⟩

/-- C3 (amended): for backtick-free content wrapped in a fence with no
language tag or with exactly the `json` tag, `extractJSON` returns the same
value as parsing the unwrapped content directly; for other language tags
the tag text is left in place, so only a braced span inside the remainder
can still be recovered (a fenced array fails, as the counterexample
shows). -/
theorem C3_fence_roundtrip (c : List Char) (v : JValue)
    (hc : ∀ ch ∈ c, ch ≠ '\x60')
    (hparse : jsonParseL c = some v) :
    extractJSON (String.mk ("```json\n".data ++ (c ++ "\n```".data))) = some v
    ∧ extractJSON (String.mk ("```\n".data ++ (c ++ "\n```".data))) = some v := by
  constructor
  · have htrim1 : jsTrim ("```json\n".data ++ (c ++ "\n```".data))
        = "```json\n".data ++ (c ++ "\n```".data) := by
      refine trimBoth_eq_self isJsWs _ (fun ch hch => ?_) (fun ch hch => ?_)
      · rw [show ("```json\n".data ++ (c ++ "\n```".data)).head? = some '\x60' from rfl] at hch
        injection hch with he
        rw [← he]
        decide
      · rw [List.getLast?_append, List.getLast?_append,
          show ("\n```".data : List Char).getLast? = some '\x60' from rfl] at hch
        injection hch with he
        rw [← he]
        decide
    have hstrip1 : fenceStrip ("```json\n".data ++ (c ++ "\n```".data)) = c ++ ['\n'] := by
      unfold fenceStrip
      rw [show startsWithFenceJson ("```json\n".data ++ (c ++ "\n```".data)) = true from rfl]
      rw [if_pos rfl]
      rw [show replJsonFence ("```json\n".data ++ (c ++ "\n```".data))
          = replJsonFence (c ++ "\n```".data) from rfl]
      rw [replJsonFence_append_of_no_tick c _ hc]
      rw [show replJsonFence "\n```".data = ['\n', '\x60', '\x60', '\x60'] from rfl]
      exact stripTrailingFence_strip c
    show extractJSONL ("```json\n".data ++ (c ++ "\n```".data)) = some v
    unfold extractJSONL
    rw [htrim1, hstrip1, jsonParseL_append_newline, hparse]
  · have htrim2 : jsTrim ("```\n".data ++ (c ++ "\n```".data))
        = "```\n".data ++ (c ++ "\n```".data) := by
      refine trimBoth_eq_self isJsWs _ (fun ch hch => ?_) (fun ch hch => ?_)
      · rw [show ("```\n".data ++ (c ++ "\n```".data)).head? = some '\x60' from rfl] at hch
        injection hch with he
        rw [← he]
        decide
      · rw [List.getLast?_append, List.getLast?_append,
          show ("\n```".data : List Char).getLast? = some '\x60' from rfl] at hch
        injection hch with he
        rw [← he]
        decide
    have hstrip2 : fenceStrip ("```\n".data ++ (c ++ "\n```".data)) = c ++ ['\n'] := by
      unfold fenceStrip
      rw [show startsWithFenceJson ("```\n".data ++ (c ++ "\n```".data)) = false from rfl]
      rw [show startsWithTicks ("```\n".data ++ (c ++ "\n```".data)) = true from rfl]
      simp only [Bool.false_eq_true, if_false, if_pos]
      rw [show replTicks ("```\n".data ++ (c ++ "\n```".data))
          = replTicks (c ++ "\n```".data) from rfl]
      rw [replTicks_append_of_no_tick c _ hc]
      rw [show replTicks "\n```".data = ['\n'] from rfl]
      refine stripTrailingFence_eq_self _ (fun ch hch => ?_)
      rcases List.mem_append.1 hch with hin | hin
      · exact hc ch hin
      · simp at hin
        rw [hin]
        decide
    show extractJSONL ("```\n".data ++ (c ++ "\n```".data)) = some v
    unfold extractJSONL
    rw [htrim2, hstrip2, jsonParseL_append_newline, hparse]

/-- Witness: C3 (amended) on a fenced array and a fenced object, with and
without the `json` tag. -/
theorem C3_fence_roundtrip_witness :
    extractJSON "```json\n[1, 2]\n```" = some (JValue.arr [JValue.num "1", JValue.num "2"])
    ∧ extractJSON "```\n[1, 2]\n```" = some (JValue.arr [JValue.num "1", JValue.num "2"])
    ∧ extractJSON "```json\n\x7b\"a\":1\x7d\n```" = some (JValue.obj [("a", JValue.num "1")]) :=
  ⟨(C3_fence_roundtrip "[1, 2]".data (JValue.arr [JValue.num "1", JValue.num "2"])
      (by decide) rfl).1,
   (C3_fence_roundtrip "[1, 2]".data (JValue.arr [JValue.num "1", JValue.num "2"])
      (by decide) rfl).2,
   (C3_fence_roundtrip "\x7b\"a\":1\x7d".data (JValue.obj [("a", JValue.num "1")])
      (by decide) rfl).1⟩
